import Mathlib

/-!
Shallow embedding of the connection/messaging workflow of the `catchup`
mobile client (services/connections.ts, services/messages.ts and the
screens that call them).  The remote store is modelled as an explicit
record of the four collections the code touches; each service function
becomes a state-passing Lean function returning the new store together
with the value/error it hands back to its caller.  Row ids and creation
timestamps are both drawn from a single monotone counter `nextId`, which
abstracts the backend's uuid generation and `created_at` stamping while
preserving insertion order; remote writes are assumed to succeed except
where a claim is about a failing write, in which case the outcome of that
single write is an explicit boolean parameter.
-/

namespace Catchup

/-- Status column of `connection_requests` (`'pending' | 'accepted'`). -/
inductive RequestStatus where
  | pending
  | accepted
deriving DecidableEq, Repr

instance : BEq RequestStatus := ⟨fun a b => decide (a = b)⟩

instance : LawfulBEq RequestStatus where
  eq_of_beq h := of_decide_eq_true h
  rfl := by simp [BEq.beq]

/-- Row of the `profiles` collection (the fields the workflow reads). -/
structure Profile where
  id : Nat
  username : String
  photo_url : Option String
  city : String
  interests : List String
deriving DecidableEq, Repr

/-- Row of the `connection_requests` collection. -/
structure ConnectionRequest where
  id : Nat
  sender_id : Nat
  receiver_id : Nat
  sender_name : String
  status : RequestStatus
  created_at : Nat
deriving DecidableEq, Repr

/-- Row of the `connections` collection. -/
structure Connection where
  id : Nat
  user1_id : Nat
  user2_id : Nat
  created_at : Nat
deriving DecidableEq, Repr

/-- Row of the `messages` collection. -/
structure Message where
  id : Nat
  sender_id : Nat
  receiver_id : Nat
  content : String
  read : Bool
  created_at : Nat
deriving DecidableEq, Repr

/-- The remote store: the four collections the workflow touches, plus the
monotone counter supplying fresh row ids and `created_at` stamps. -/
structure DB where
  profiles : List Profile
  connection_requests : List ConnectionRequest
  connections : List Connection
  messages : List Message
  nextId : Nat
deriving DecidableEq, Repr

/-- The error values the service layer returns (each constructor stands for
one `new Error(...)` message or an opaque backend failure). -/
inductive Err where
  | senderProfileNotFound
  | alreadyRequested
  | alreadyConnected
  | requestNotFound
  | notConnected
  | storage
deriving DecidableEq, Repr

/-- `profiles` lookup by id with `.single()`: the first (unique) row. -/
def findProfile (db : DB) (userId : Nat) : Option Profile :=
  db.profiles.find? (fun p => p.id == userId)

/-- Does a `connections` row touch the given user in either column? -/
def touches (c : Connection) (userId : Nat) : Bool :=
  c.user1_id == userId || c.user2_id == userId

/-- `sendConnectionRequest` (services/connections.ts).  Looks up the
sender's profile, rejects a duplicate pending request on the ordered pair,
rejects when the chained or-filters on `connections` match a row (two
chained `.or` filters conjoin: the row must touch the sender AND touch the
receiver), else inserts a pending request snapshotting the username. -/
def sendConnectionRequest (db : DB) (senderId receiverId : Nat) :
    DB × Option Err :=
  match findProfile db senderId with
  | none => (db, some Err.senderProfileNotFound)
  | some p =>
    if p.username == "" then
      (db, some Err.senderProfileNotFound)
    else
      let existingRequests := db.connection_requests.filter (fun r =>
        r.sender_id == senderId && r.receiver_id == receiverId &&
          r.status == RequestStatus.pending)
      if existingRequests.isEmpty = false then
        (db, some Err.alreadyRequested)
      else
        let existingConnections := db.connections.filter (fun c =>
          touches c senderId && touches c receiverId)
        if existingConnections.isEmpty = false then
          (db, some Err.alreadyConnected)
        else
          let req : ConnectionRequest :=
            { id := db.nextId, sender_id := senderId,
              receiver_id := receiverId, sender_name := p.username,
              status := RequestStatus.pending, created_at := db.nextId }
          ({ db with
              connection_requests := db.connection_requests ++ [req],
              nextId := db.nextId + 1 }, none)

/-- The `order('created_at', { ascending: false })` relation on requests. -/
def reqNewerFirst (a b : ConnectionRequest) : Prop :=
  b.created_at ≤ a.created_at

instance : DecidableRel reqNewerFirst := fun a b =>
  Nat.decLe b.created_at a.created_at

instance : IsTotal ConnectionRequest reqNewerFirst :=
  ⟨fun a b => Nat.le_total b.created_at a.created_at⟩

instance : IsTrans ConnectionRequest reqNewerFirst :=
  ⟨fun _ _ _ h1 h2 => Nat.le_trans h2 h1⟩

/-- `getConnectionRequests` (services/connections.ts): pending requests
addressed to the user, newest first.  A failing remote query is caught,
logged, and an empty list is returned; the result carries no error field
at all (`return { requests: [] }`), which `queryFails` makes explicit. -/
def getConnectionRequests (db : DB) (userId : Nat) (queryFails : Bool) :
    List ConnectionRequest :=
  if queryFails then
    []
  else
    List.insertionSort reqNewerFirst
      (db.connection_requests.filter (fun r =>
        r.receiver_id == userId && r.status == RequestStatus.pending))

/-- `acceptConnectionRequest` (services/connections.ts): fetch the request
by id, mark it accepted, then insert a `connections` row for
(sender, receiver).  The two writes are sequential and independent;
`connInsertOk` is the outcome of the second write, whose error is returned
as-is with no compensation of the first write. -/
def acceptConnectionRequest (db : DB) (requestId : Nat)
    (connInsertOk : Bool) : DB × Option Err :=
  match db.connection_requests.find? (fun r => r.id == requestId) with
  | none => (db, some Err.requestNotFound)
  | some request =>
    let db1 : DB :=
      { db with
          connection_requests := db.connection_requests.map (fun r =>
            if r.id == requestId then
              { r with status := RequestStatus.accepted }
            else r) }
    if connInsertOk then
      let conn : Connection :=
        { id := db1.nextId, user1_id := request.sender_id,
          user2_id := request.receiver_id, created_at := db1.nextId }
      ({ db1 with
          connections := db1.connections ++ [conn],
          nextId := db1.nextId + 1 }, none)
    else
      (db1, some Err.storage)

/-- Item of the list `getUserConnections` builds for the screen. -/
structure UserConnection where
  connectionId : Nat
  userId : Nat
  username : String
  photoUrl : Option String
  city : String
  interests : List String
  createdAt : Nat
deriving DecidableEq, Repr

/-- The counterpart of `userId` on a `connections` row. -/
def otherUser (c : Connection) (userId : Nat) : Nat :=
  if c.user1_id == userId then c.user2_id else c.user1_id

/-- Per-item profile resolution inside `getUserConnections`: a failed
counterpart lookup yields `none` (the code logs and `continue`s). -/
def resolveConnection (db : DB) (userId : Nat) (c : Connection) :
    Option UserConnection :=
  match findProfile db (otherUser c userId) with
  | none => none
  | some p =>
    some { connectionId := c.id, userId := p.id, username := p.username,
           photoUrl := p.photo_url, city := p.city,
           interests := p.interests, createdAt := c.created_at }

/-- `getUserConnections` (services/connections.ts): all `connections`
rows touching the user; each row's counterpart profile is resolved
separately, and a row whose lookup fails is skipped, never aborting the
enumeration. -/
def getUserConnections (db : DB) (userId : Nat) :
    List UserConnection × Option Err :=
  ((db.connections.filter (fun c => touches c userId)).filterMap
    (resolveConnection db userId), none)

/-- `disconnectUser` (services/connections.ts): delete by connection id;
the remote delete reports no error when nothing matches. -/
def disconnectUser (db : DB) (connectionId : Nat) : DB × Option Err :=
  ({ db with
      connections := db.connections.filter (fun c =>
        (c.id == connectionId) = false) }, none)

/-- Modelled from the spec: `declineConnectionRequest` is imported by the
connections screen from services/connections, but its definition is absent
from the repository snapshot (only the import and the call site exist).
Spec section 4.1: fails with `RequestNotFound` if the id is absent; on
success removes the request entirely, retaining no history. -/
def declineConnectionRequest (db : DB) (requestId : Nat) : DB × Option Err :=
  match db.connection_requests.find? (fun r => r.id == requestId) with
  | none => (db, some Err.requestNotFound)
  | some _ =>
    ({ db with
        connection_requests := db.connection_requests.filter (fun r =>
          (r.id == requestId) = false) }, none)

/-- Does a `connections` row match the unordered pair in either column
order?  This is the `or(and(user1.eq.a,user2.eq.b),and(user1.eq.b,
user2.eq.a))` filter of services/messages.ts. -/
def pairMatches (c : Connection) (a b : Nat) : Bool :=
  (c.user1_id == a && c.user2_id == b) ||
    (c.user1_id == b && c.user2_id == a)

/-- The `connections` rows linking the two users, as queried by
`sendMessage` and `getConversation`. -/
def connectionBetween (db : DB) (a b : Nat) : List Connection :=
  db.connections.filter (fun c => pairMatches c a b)

/-- `sendMessage` (services/messages.ts): verify the two users are
connected, then insert the message with `read := false`.  The service
takes only text content; it performs no payload validation. -/
def sendMessage (db : DB) (senderId receiverId : Nat) (content : String) :
    DB × Option Err :=
  if (connectionBetween db senderId receiverId).isEmpty then
    (db, some Err.notConnected)
  else
    let m : Message :=
      { id := db.nextId, sender_id := senderId, receiver_id := receiverId,
        content := content, read := false, created_at := db.nextId }
    ({ db with messages := db.messages ++ [m], nextId := db.nextId + 1 },
      none)

/-- The `messages` rows between the two users, in either direction. -/
def messagesBetween (db : DB) (userId otherUserId : Nat) : List Message :=
  db.messages.filter (fun m =>
    (m.sender_id == userId && m.receiver_id == otherUserId) ||
      (m.sender_id == otherUserId && m.receiver_id == userId))

/-- The `order('created_at', { ascending: true })` relation on messages. -/
def msgOlderFirst (a b : Message) : Prop :=
  a.created_at ≤ b.created_at

instance : DecidableRel msgOlderFirst := fun a b =>
  Nat.decLe a.created_at b.created_at

instance : IsTotal Message msgOlderFirst :=
  ⟨fun a b => Nat.le_total a.created_at b.created_at⟩

instance : IsTrans Message msgOlderFirst :=
  ⟨fun _ _ _ h1 h2 => Nat.le_trans h1 h2⟩

/-- `getConversation` (services/messages.ts): verify the connection,
fetch the conversation ordered by creation time ascending, then — after
the fetch — mark unread messages addressed to `userId` from `otherUserId`
as read.  The returned list is the pre-update snapshot. -/
def getConversation (db : DB) (userId otherUserId : Nat) :
    DB × List Message × Option Err :=
  if (connectionBetween db userId otherUserId).isEmpty then
    (db, [], some Err.notConnected)
  else
    let msgs := List.insertionSort msgOlderFirst
      (messagesBetween db userId otherUserId)
    let db1 : DB :=
      { db with
          messages := db.messages.map (fun m =>
            if m.sender_id == otherUserId && m.receiver_id == userId &&
                m.read == false then
              { m with read := true }
            else m) }
    (db1, msgs, none)

/-- `getUnreadMessageCount` (services/messages.ts): messages addressed to
the user that are still unread, across all conversations. -/
def getUnreadMessageCount (db : DB) (userId : Nat) : Nat :=
  (db.messages.filter (fun m =>
    m.receiver_id == userId && m.read == false)).length

/-- JavaScript `String.prototype.trim`: strip leading and trailing
whitespace (modelled on the underlying character list). -/
def jsTrim (s : String) : String :=
  ⟨((s.data.dropWhile Char.isWhitespace).reverse.dropWhile
      Char.isWhitespace).reverse⟩

/-- `handleSendMessage` (app/(app)/chat/[userId].tsx): the send handler of
the chat screen.  It returns early — sending nothing — when there is no
media attached and the trimmed text is empty, and also when a media upload
fails (`uploadOk` is that upload's outcome).  Otherwise it sends the
trimmed text, falling back to a placeholder caption for media-only sends.
The extra media arguments of the call are dropped by the three-parameter
service `sendMessage`, so only the content reaches the store. -/
def handleSendMessage (db : DB) (userId otherUserId : Nat)
    (messageText : String) (mediaToSend : Option String) (uploadOk : Bool) :
    DB × Option Err :=
  let isMediaMessage := mediaToSend.isSome
  let hasTextContent := !(jsTrim messageText == "")
  if !isMediaMessage && !hasTextContent then
    (db, none)
  else if isMediaMessage && !uploadOk then
    (db, none)
  else
    let content :=
      if !(jsTrim messageText == "") then jsTrim messageText
      else if isMediaMessage then "📎 Media" else ""
    sendMessage db userId otherUserId content

/-! ## General lemmas about the embedding -/

theorem connectionBetween_eq_nil_iff (db : DB) (a b : Nat) :
    connectionBetween db a b = [] ↔
      ∀ c ∈ db.connections, pairMatches c a b = false := by
  unfold connectionBetween
  rw [List.filter_eq_nil_iff]
  simp

theorem pairMatches_comm (c : Connection) (a b : Nat) :
    pairMatches c a b = pairMatches c b a := by
  unfold pairMatches
  exact Bool.or_comm _ _

theorem connectionBetween_comm (db : DB) (a b : Nat) :
    connectionBetween db a b = connectionBetween db b a := by
  unfold connectionBetween
  exact List.filter_congr (fun c _ => pairMatches_comm c a b)

theorem sendMessage_snd (db : DB) (a b : Nat) (content : String) :
    (sendMessage db a b content).2 =
      if (connectionBetween db a b).isEmpty then some Err.notConnected
      else none := by
  unfold sendMessage
  split <;> rfl

theorem getConversation_err (db : DB) (a b : Nat) :
    (getConversation db a b).2.2 =
      if (connectionBetween db a b).isEmpty then some Err.notConnected
      else none := by
  unfold getConversation
  split <;> rfl

/-- C1: the message authorization gate is an iff and is symmetric: for all
users A, B, `sendMessage` and `getConversation` fail with NotConnected
exactly when no `connections` row matches the unordered pair in either
column order; the queried row set is symmetric in the argument order, and
when a matching row exists neither operation fails for either order. -/
theorem message_gate_iff_and_symmetric (db : DB) (a b : Nat)
    (content : String) :
    ((sendMessage db a b content).2 = some Err.notConnected ↔
      ∀ c ∈ db.connections, pairMatches c a b = false) ∧
    ((getConversation db a b).2.2 = some Err.notConnected ↔
      ∀ c ∈ db.connections, pairMatches c a b = false) ∧
    connectionBetween db a b = connectionBetween db b a ∧
    ((∃ c ∈ db.connections, pairMatches c a b = true) →
      (sendMessage db a b content).2 = none ∧
      (sendMessage db b a content).2 = none ∧
      (getConversation db a b).2.2 = none ∧
      (getConversation db b a).2.2 = none) := by
  have hnil := connectionBetween_eq_nil_iff db a b
  have hcomm := connectionBetween_comm db a b
  have hiff : (connectionBetween db a b).isEmpty = true ↔
      ∀ c ∈ db.connections, pairMatches c a b = false := by
    rw [List.isEmpty_iff]; exact hnil
  refine ⟨?_, ?_, hcomm, ?_⟩
  · rw [sendMessage_snd]
    constructor
    · intro h
      by_cases he : (connectionBetween db a b).isEmpty
      · exact hiff.mp he
      · simp [he] at h
    · intro h
      simp [hiff.mpr h]
  · rw [getConversation_err]
    constructor
    · intro h
      by_cases he : (connectionBetween db a b).isEmpty
      · exact hiff.mp he
      · simp [he] at h
    · intro h
      simp [hiff.mpr h]
  · intro ⟨c, hc, hm⟩
    have hne : (connectionBetween db a b).isEmpty = false := by
      by_cases he : (connectionBetween db a b).isEmpty
      · exact absurd hm (by simpa using (hiff.mp he) c hc)
      · simpa using he
    have hne' : (connectionBetween db b a).isEmpty = false := by
      rw [← hcomm]; exact hne
    refine ⟨?_, ?_, ?_, ?_⟩ <;>
      simp [sendMessage_snd, getConversation_err, hne, hne']

/-- A concrete store holding a single connection row stored as (1, 2). -/
def dbOnePair : DB :=
  { profiles := [], connection_requests := [],
    connections := [⟨10, 1, 2, 0⟩], messages := [], nextId := 11 }

/-- C1 witness: on `dbOnePair` the pair is matched in the reversed
argument order (2, 1), and `sendMessage 2 1` is authorized. -/
theorem message_gate_iff_and_symmetric_witness :
    (∃ c ∈ dbOnePair.connections, pairMatches c 2 1 = true) ∧
    (sendMessage dbOnePair 2 1 "hi").2 = none := by
  have h := message_gate_iff_and_symmetric dbOnePair 2 1 "hi"
  have hex : ∃ c ∈ dbOnePair.connections, pairMatches c 2 1 = true :=
    ⟨⟨10, 1, 2, 0⟩, by decide, by decide⟩
  exact ⟨hex, (h.2.2.2 hex).1⟩

theorem findProfile_congr {db1 db2 : DB} (u : Nat)
    (h : db1.profiles = db2.profiles) :
    findProfile db1 u = findProfile db2 u := by
  unfold findProfile
  rw [h]

/-- Inversion of a successful `sendConnectionRequest`: the sender profile
resolved with a nonempty username, both pre-checks passed, and the new
store is the old one plus the freshly stamped pending request. -/
theorem sendConnectionRequest_ok (db : DB) (a b : Nat) (db1 : DB)
    (h : sendConnectionRequest db a b = (db1, none)) :
    ∃ p, findProfile db a = some p ∧ (p.username == "") = false ∧
      db1 = { db with
        connection_requests := db.connection_requests ++
          [⟨db.nextId, a, b, p.username, RequestStatus.pending, db.nextId⟩],
        nextId := db.nextId + 1 } := by
  unfold sendConnectionRequest at h
  cases hp : findProfile db a with
  | none => rw [hp] at h; simp at h
  | some p =>
    rw [hp] at h
    simp only at h
    split_ifs at h with h1 h2 h3
    · simp at h
    · simp at h
    · simp at h
    · refine ⟨p, rfl, by simpa using h1, ?_⟩
      have := (Prod.mk.injEq _ _ _ _).mp h
      exact this.1.symm

theorem getConnectionRequests_mem (db : DB) (u : Nat)
    (r : ConnectionRequest) :
    r ∈ getConnectionRequests db u false ↔
      r ∈ db.connection_requests ∧ r.receiver_id = u ∧
        r.status = RequestStatus.pending := by
  unfold getConnectionRequests
  rw [if_neg (by simp), List.mem_insertionSort, List.mem_filter]
  simp [and_assoc]

theorem getConnectionRequests_sorted (db : DB) (u : Nat) :
    List.Sorted reqNewerFirst (getConnectionRequests db u false) := by
  unfold getConnectionRequests
  rw [if_neg (by simp)]
  exact List.sorted_insertionSort reqNewerFirst _

/-- C2: after a successful `sendConnectionRequest A B`, `listIncoming B`
(a non-failing `getConnectionRequests B`) contains a pending request from
A; the listing returns exactly the pending requests addressed to B,
sorted newest first; and a second `sendConnectionRequest A B` in the new
state fails with AlreadyRequested, the duplicate check firing on the
ordered pair with status pending. -/
theorem sendRequest_listIncoming_duplicate (db : DB) (a b : Nat) (db1 : DB)
    (h : sendConnectionRequest db a b = (db1, none)) :
    (∃ r ∈ getConnectionRequests db1 b false,
      r.sender_id = a ∧ r.status = RequestStatus.pending) ∧
    (∀ r, r ∈ getConnectionRequests db1 b false ↔
      r ∈ db1.connection_requests ∧ r.receiver_id = b ∧
        r.status = RequestStatus.pending) ∧
    List.Sorted reqNewerFirst (getConnectionRequests db1 b false) ∧
    (sendConnectionRequest db1 a b).2 = some Err.alreadyRequested := by
  obtain ⟨p, hp, hu, hdb1⟩ := sendConnectionRequest_ok db a b db1 h
  have hreqs : db1.connection_requests = db.connection_requests ++
      [⟨db.nextId, a, b, p.username, RequestStatus.pending, db.nextId⟩] := by
    rw [hdb1]
  have hmemnew :
      (⟨db.nextId, a, b, p.username, RequestStatus.pending, db.nextId⟩ :
        ConnectionRequest) ∈ db1.connection_requests := by
    rw [hreqs]
    exact List.mem_append_right _ (List.mem_singleton.mpr rfl)
  refine ⟨?_, fun r => getConnectionRequests_mem db1 b r,
    getConnectionRequests_sorted db1 b, ?_⟩
  · exact ⟨_, (getConnectionRequests_mem db1 b _).mpr
      ⟨hmemnew, rfl, rfl⟩, rfl, rfl⟩
  · have hp1 : findProfile db1 a = some p := by
      rw [findProfile_congr a (by rw [hdb1])]
      exact hp
    unfold sendConnectionRequest
    rw [hp1]
    simp only
    rw [if_neg (by simp [hu])]
    have hne : (db1.connection_requests.filter (fun r =>
        r.sender_id == a && r.receiver_id == b &&
          r.status == RequestStatus.pending)).isEmpty = false := by
      have : (⟨db.nextId, a, b, p.username, RequestStatus.pending,
          db.nextId⟩ : ConnectionRequest) ∈
          db1.connection_requests.filter (fun r =>
            r.sender_id == a && r.receiver_id == b &&
              r.status == RequestStatus.pending) :=
        List.mem_filter.mpr ⟨hmemnew, by simp⟩
      rcases hl : db1.connection_requests.filter (fun r =>
          r.sender_id == a && r.receiver_id == b &&
            r.status == RequestStatus.pending) with _ | _
      · rw [hl] at this; simp at this
      · rw [hl]; rfl
    rw [if_pos (by simp [hne])]

/-- Two profiles and an empty ledger: the base store for the C2 run. -/
def dbTwoProfiles : DB :=
  { profiles := [⟨1, "alice", none, "melb", []⟩, ⟨2, "bob", none, "syd", []⟩],
    connection_requests := [], connections := [], messages := [],
    nextId := 3 }

/-- The store after `sendConnectionRequest dbTwoProfiles 1 2`. -/
def dbAfterRequest : DB :=
  { profiles := [⟨1, "alice", none, "melb", []⟩, ⟨2, "bob", none, "syd", []⟩],
    connection_requests := [⟨3, 1, 2, "alice", RequestStatus.pending, 3⟩],
    connections := [], messages := [], nextId := 4 }

/-- C2 witness: the concrete run from `dbTwoProfiles`. -/
theorem sendRequest_listIncoming_duplicate_witness :
    sendConnectionRequest dbTwoProfiles 1 2 = (dbAfterRequest, none) ∧
    ((∃ r ∈ getConnectionRequests dbAfterRequest 2 false,
      r.sender_id = 1 ∧ r.status = RequestStatus.pending) ∧
    (∀ r, r ∈ getConnectionRequests dbAfterRequest 2 false ↔
      r ∈ dbAfterRequest.connection_requests ∧ r.receiver_id = 2 ∧
        r.status = RequestStatus.pending) ∧
    List.Sorted reqNewerFirst (getConnectionRequests dbAfterRequest 2 false) ∧
    (sendConnectionRequest dbAfterRequest 1 2).2 =
      some Err.alreadyRequested) :=
  ⟨by decide, sendRequest_listIncoming_duplicate dbTwoProfiles 1 2
    dbAfterRequest (by decide)⟩

/-- Result of `acceptConnectionRequest` when the request is found but the
`connections` insert fails: the request list is rewritten with the status
update, the error of the failed insert is returned, nothing else moves. -/
theorem accept_insert_fail_result (db : DB) (rid : Nat)
    (req : ConnectionRequest)
    (h : db.connection_requests.find? (fun r => r.id == rid) = some req) :
    acceptConnectionRequest db rid false =
      ({ db with
          connection_requests := db.connection_requests.map (fun r =>
            if r.id == rid then { r with status := RequestStatus.accepted }
            else r) }, some Err.storage) := by
  unfold acceptConnectionRequest
  rw [h]
  simp

/-- C3: `accept` is not atomic and does not roll back: when the request
exists and the `connections` insert fails, the call returns the insert's
error, yet the request is left marked accepted and no `connections` row
for the request's pair exists (given none existed before); the first
write is not compensated. -/
theorem accept_insert_failure_not_compensated (db : DB) (rid : Nat)
    (req : ConnectionRequest)
    (h : db.connection_requests.find? (fun r => r.id == rid) = some req)
    (hnc : ∀ c ∈ db.connections,
      pairMatches c req.sender_id req.receiver_id = false) :
    (acceptConnectionRequest db rid false).2 = some Err.storage ∧
    (∃ r ∈ (acceptConnectionRequest db rid false).1.connection_requests,
      r.id = rid ∧ r.status = RequestStatus.accepted) ∧
    (acceptConnectionRequest db rid false).1.connections = db.connections ∧
    ∀ c ∈ (acceptConnectionRequest db rid false).1.connections,
      pairMatches c req.sender_id req.receiver_id = false := by
  have hid : req.id = rid := by simpa using List.find?_some h
  have hmem : req ∈ db.connection_requests := List.mem_of_find?_eq_some h
  rw [accept_insert_fail_result db rid req h]
  refine ⟨rfl, ?_, rfl, fun c hc => hnc c hc⟩
  refine ⟨{ req with status := RequestStatus.accepted },
    List.mem_map.mpr ⟨req, hmem, ?_⟩, hid, rfl⟩
  rw [if_pos (by simp [hid])]

/-- C3 witness: on `dbAfterRequest`, accepting request 3 with a failing
connection insert returns the storage error, leaves the request accepted,
and inserts no connection. -/
theorem accept_insert_failure_not_compensated_witness :
    (dbAfterRequest.connection_requests.find? (fun r => r.id == 3) =
      some ⟨3, 1, 2, "alice", RequestStatus.pending, 3⟩) ∧
    ((acceptConnectionRequest dbAfterRequest 3 false).2 =
        some Err.storage ∧
      (∃ r ∈ (acceptConnectionRequest dbAfterRequest 3 false).fst.connection_requests,
        r.id = 3 ∧ r.status = RequestStatus.accepted) ∧
      (acceptConnectionRequest dbAfterRequest 3 false).1.connections =
        dbAfterRequest.connections ∧
      ∀ c ∈ (acceptConnectionRequest dbAfterRequest 3 false).1.connections,
        pairMatches c 1 2 = false) :=
  ⟨by decide, accept_insert_failure_not_compensated dbAfterRequest 3
    ⟨3, 1, 2, "alice", RequestStatus.pending, 3⟩ (by decide) (by decide)⟩

/-! ## The at-most-one-connection-per-unordered-pair invariant -/

/-- Two `connections` rows carry the same unordered pair of users. -/
def samePair (c1 c2 : Connection) : Bool :=
  (c1.user1_id == c2.user1_id && c1.user2_id == c2.user2_id) ||
    (c1.user1_id == c2.user2_id && c1.user2_id == c2.user1_id)

/-- At most one `connections` row per unordered pair of users. -/
def uniquePairs (db : DB) : Prop :=
  db.connections.Pairwise (fun c1 c2 => samePair c1 c2 = false)

instance (db : DB) : Decidable (uniquePairs db) := by
  unfold uniquePairs
  infer_instance

theorem uniquePairs_of_connections_eq {db1 db2 : DB}
    (h : db1.connections = db2.connections) (h2 : uniquePairs db2) :
    uniquePairs db1 := by
  unfold uniquePairs at *
  rw [h]
  exact h2

theorem sendConnectionRequest_connections (db : DB) (a b : Nat) :
    (sendConnectionRequest db a b).1.connections = db.connections := by
  unfold sendConnectionRequest
  cases findProfile db a
  · rfl
  · simp only
    split_ifs <;> rfl

theorem declineConnectionRequest_connections (db : DB) (rid : Nat) :
    (declineConnectionRequest db rid).1.connections = db.connections := by
  unfold declineConnectionRequest
  cases db.connection_requests.find? (fun r => r.id == rid) <;> rfl

theorem sendMessage_connections (db : DB) (a b : Nat) (s : String) :
    (sendMessage db a b s).1.connections = db.connections := by
  unfold sendMessage
  split_ifs <;> rfl

theorem getConversation_connections (db : DB) (a b : Nat) :
    (getConversation db a b).1.connections = db.connections := by
  unfold getConversation
  split_ifs <;> rfl

theorem samePair_of_pairMatches (c : Connection) (x : Connection) :
    samePair c x = pairMatches c x.user1_id x.user2_id := rfl

/-- Result of a successful `acceptConnectionRequest`: the request list is
rewritten with the status update and the new connection row for the
request's pair is appended. -/
theorem accept_ok_result (db : DB) (rid : Nat) (req : ConnectionRequest)
    (h : db.connection_requests.find? (fun r => r.id == rid) = some req) :
    acceptConnectionRequest db rid true =
      ({ db with
          connection_requests := db.connection_requests.map (fun r =>
            if r.id == rid then { r with status := RequestStatus.accepted }
            else r),
          connections := db.connections ++
            [⟨db.nextId, req.sender_id, req.receiver_id, db.nextId⟩],
          nextId := db.nextId + 1 }, none) := by
  unfold acceptConnectionRequest
  rw [h]
  simp

theorem accept_fail_connections (db : DB) (rid : Nat) :
    (acceptConnectionRequest db rid false).1.connections =
      db.connections := by
  unfold acceptConnectionRequest
  cases db.connection_requests.find? (fun r => r.id == rid)
  · rfl
  · simp

/-- C4 (amended): every workflow operation except a repeated `accept`
preserves the at-most-one-connection-per-unordered-pair invariant:
`sendRequest`, `decline`, `disconnect`, `sendMessage`, `getConversation`
never add a `connections` row; `accept` whose insert does not run
preserves it; and `accept` whose insert runs preserves it exactly when no
`connections` row for the fetched request's pair already exists — the
reads `listIncoming`/`listConnections` do not write at all. -/
theorem workflow_preserves_unique_pairs :
    (∀ db a b, uniquePairs db →
      uniquePairs (sendConnectionRequest db a b).1) ∧
    (∀ db rid, uniquePairs db →
      uniquePairs (declineConnectionRequest db rid).1) ∧
    (∀ db cid, uniquePairs db → uniquePairs (disconnectUser db cid).1) ∧
    (∀ db a b s, uniquePairs db → uniquePairs (sendMessage db a b s).1) ∧
    (∀ db a b, uniquePairs db → uniquePairs (getConversation db a b).1) ∧
    (∀ db rid, uniquePairs db →
      uniquePairs (acceptConnectionRequest db rid false).1) ∧
    (∀ db rid req,
      db.connection_requests.find? (fun r => r.id == rid) = some req →
      (∀ c ∈ db.connections,
        pairMatches c req.sender_id req.receiver_id = false) →
      uniquePairs db →
      uniquePairs (acceptConnectionRequest db rid true).1) := by
  refine ⟨?_, ?_, ?_, ?_, ?_, ?_, ?_⟩
  · intro db a b h
    exact uniquePairs_of_connections_eq
      (sendConnectionRequest_connections db a b) h
  · intro db rid h
    exact uniquePairs_of_connections_eq
      (declineConnectionRequest_connections db rid) h
  · intro db cid h
    unfold uniquePairs disconnectUser at *
    exact h.sublist (List.filter_sublist _)
  · intro db a b s h
    exact uniquePairs_of_connections_eq (sendMessage_connections db a b s) h
  · intro db a b h
    exact uniquePairs_of_connections_eq (getConversation_connections db a b) h
  · intro db rid h
    exact uniquePairs_of_connections_eq (accept_fail_connections db rid) h
  · intro db rid req hfind hnc h
    rw [accept_ok_result db rid req hfind]
    unfold uniquePairs at *
    simp only
    rw [List.pairwise_append]
    refine ⟨h, List.pairwise_singleton _ _, ?_⟩
    intro a ha b hb
    rw [List.mem_singleton] at hb
    subst hb
    rw [samePair_of_pairMatches]
    exact hnc a ha

/-- The store after `acceptConnectionRequest dbAfterRequest 3 true`. -/
def dbConnected : DB :=
  { profiles := [⟨1, "alice", none, "melb", []⟩, ⟨2, "bob", none, "syd", []⟩],
    connection_requests := [⟨3, 1, 2, "alice", RequestStatus.accepted, 3⟩],
    connections := [⟨4, 1, 2, 4⟩], messages := [], nextId := 5 }

/-- The store after a second `acceptConnectionRequest _ 3 true`. -/
def dbDupConnected : DB :=
  { profiles := [⟨1, "alice", none, "melb", []⟩, ⟨2, "bob", none, "syd", []⟩],
    connection_requests := [⟨3, 1, 2, "alice", RequestStatus.accepted, 3⟩],
    connections := [⟨4, 1, 2, 4⟩, ⟨5, 1, 2, 5⟩], messages := [],
    nextId := 6 }

/-- C4 counterexample: from the reachable state `dbConnected` (obtained by
accepting request 3 once), a second `accept` of the same id succeeds and
inserts a second `connections` row for the same unordered pair, breaking
the uniqueness invariant: not every operation preserves it. -/
theorem accept_twice_breaks_unique_pairs :
    acceptConnectionRequest dbAfterRequest 3 true = (dbConnected, none) ∧
    uniquePairs dbConnected ∧
    acceptConnectionRequest dbConnected 3 true = (dbDupConnected, none) ∧
    ¬ uniquePairs dbDupConnected := by decide

/-- C4 witness: each preserved operation applied on the concrete
connected store. -/
theorem workflow_preserves_unique_pairs_witness :
    uniquePairs dbConnected ∧
    uniquePairs (sendConnectionRequest dbConnected 1 2).1 ∧
    uniquePairs (declineConnectionRequest dbConnected 3).1 ∧
    uniquePairs (disconnectUser dbConnected 4).1 ∧
    uniquePairs (sendMessage dbConnected 1 2 "hi").1 ∧
    uniquePairs (getConversation dbConnected 1 2).1 ∧
    uniquePairs (acceptConnectionRequest dbConnected 3 false).1 ∧
    uniquePairs (acceptConnectionRequest dbAfterRequest 3 true).1 := by
  have h := workflow_preserves_unique_pairs
  have hu : uniquePairs dbConnected := by decide
  exact ⟨hu, h.1 _ 1 2 hu, h.2.1 _ 3 hu, h.2.2.1 _ 4 hu,
    h.2.2.2.1 _ 1 2 "hi" hu, h.2.2.2.2.1 _ 1 2 hu, h.2.2.2.2.2.1 _ 3 hu,
    h.2.2.2.2.2.2 _ 3 ⟨3, 1, 2, "alice", RequestStatus.pending, 3⟩
      (by decide) (by decide) (by decide)⟩

/-! ## Ordering lemmas for the conversation fetch -/

theorem orderedInsert_append_single {α : Type} (r : α → α → Prop)
    [DecidableRel r] (a x : α) (s : List α) (h : r a x) :
    (s ++ [x]).orderedInsert r a = s.orderedInsert r a ++ [x] := by
  induction s with
  | nil => simp [List.orderedInsert, if_pos h]
  | cons b bs ih =>
    simp only [List.cons_append, List.orderedInsert]
    split_ifs <;> simp [ih]

theorem insertionSort_append_single {α : Type} (r : α → α → Prop)
    [DecidableRel r] (l : List α) (x : α) (h : ∀ a ∈ l, r a x) :
    List.insertionSort r (l ++ [x]) = List.insertionSort r l ++ [x] := by
  induction l with
  | nil => simp
  | cons b bs ih =>
    simp only [List.cons_append, List.insertionSort, List.append_eq]
    rw [ih (fun a ha => h a (List.mem_cons_of_mem b ha))]
    exact orderedInsert_append_single r b x _ (h b (List.mem_cons_self b bs))

/-- Inversion of a successful `sendMessage`: the connection check passed
and the new store is the old one plus the freshly stamped unread row. -/
theorem sendMessage_ok (db db1 : DB) (a b : Nat) (content : String)
    (h : sendMessage db a b content = (db1, none)) :
    (connectionBetween db a b).isEmpty = false ∧
    db1 = { db with
      messages := db.messages ++
        [⟨db.nextId, a, b, content, false, db.nextId⟩],
      nextId := db.nextId + 1 } := by
  unfold sendMessage at h
  split_ifs at h with hc
  · simp at h
  · exact ⟨by simpa using hc, ((Prod.mk.injEq _ _ _ _).mp h).1.symm⟩

theorem connectionBetween_congr {db1 db2 : DB} (a b : Nat)
    (h : db1.connections = db2.connections) :
    connectionBetween db1 a b = connectionBetween db2 a b := by
  unfold connectionBetween
  rw [h]

/-- Pointwise effect of the read-marking update of `getConversation b a`
on the unread filter for receiver `b`: the marked rows are exactly the
previously unread rows from `a`. -/
theorem mark_read_filter_receiver (a b : Nat) (m : Message) :
    ((if m.sender_id == a && m.receiver_id == b && m.read == false then
        { m with read := true } else m).receiver_id == b &&
      (if m.sender_id == a && m.receiver_id == b && m.read == false then
        { m with read := true } else m).read == false) =
    (m.receiver_id == b && m.read == false && !(m.sender_id == a)) := by
  split_ifs with h
  · simp_all
  · cases hs : (m.sender_id == a) <;> cases hr : (m.receiver_id == b) <;>
      cases hm : m.read <;> simp_all

/-- Pointwise: the read-marking update of `getConversation b a` does not
touch the unread filter for any other receiver `x ≠ b`. -/
theorem mark_read_filter_other (a b x : Nat) (m : Message) (hx : x ≠ b) :
    ((if m.sender_id == a && m.receiver_id == b && m.read == false then
        { m with read := true } else m).receiver_id == x &&
      (if m.sender_id == a && m.receiver_id == b && m.read == false then
        { m with read := true } else m).read == false) =
    (m.receiver_id == x && m.read == false) := by
  split_ifs with h
  · have hr : m.receiver_id = b := by
      have := h
      simp only [Bool.and_eq_true, beq_iff_eq] at this
      exact this.1.2
    simp [hr, hx, Ne.symm hx]
  · rfl

/-- The store after `sendMessage dbConnected 1 2 "hello"`. -/
def dbHello : DB :=
  { profiles := [⟨1, "alice", none, "melb", []⟩, ⟨2, "bob", none, "syd", []⟩],
    connection_requests := [⟨3, 1, 2, "alice", RequestStatus.accepted, 3⟩],
    connections := [⟨4, 1, 2, 4⟩],
    messages := [⟨5, 1, 2, "hello", false, 5⟩], nextId := 6 }

/-- C5 counterexample: with connected users 1 and 2 and `sendMessage 1 2
"hello"` persisted, the subsequent `getConversation 1 2` — the call order
the claim names, with the sender as `userId` — marks nothing, because the
update only touches messages addressed to `userId` from `otherUserId`:
afterwards `getUnreadMessageCount 2` still counts the hello message,
which is still stored unread, contradicting the claimed exclusion. -/
theorem conversation_readmark_wrong_direction :
    sendMessage dbConnected 1 2 "hello" = (dbHello, none) ∧
    (getConversation dbHello 1 2).2.1.getLast? =
      some ⟨5, 1, 2, "hello", false, 5⟩ ∧
    getUnreadMessageCount (getConversation dbHello 1 2).1 2 = 1 ∧
    (∃ m ∈ (getConversation dbHello 1 2).1.messages,
      m.content = "hello" ∧ m.sender_id = 1 ∧ m.read = false) := by
  decide

/-- C5 (amended): the round-trip holds when the conversation is opened by
the receiver: for connected users A ≠ B, after `sendMessage A B "hello"`
succeeds, `getConversation B A` succeeds and returns the messages between
the pair sorted by creation time ascending with the hello row last; the
hello row is then stored marked read — so `unreadCount B` excludes it —
while `unreadCount A` is unchanged. -/
theorem send_then_receiver_reads_roundtrip (db db1 : DB) (a b : Nat)
    (hab : a ≠ b)
    (h : sendMessage db a b "hello" = (db1, none))
    (hfresh : ∀ m ∈ db.messages, m.created_at < db.nextId) :
    (getConversation db1 b a).2.2 = none ∧
    List.Perm (getConversation db1 b a).2.1 (messagesBetween db1 b a) ∧
    List.Sorted msgOlderFirst (getConversation db1 b a).2.1 ∧
    (getConversation db1 b a).2.1.getLast? =
      some ⟨db.nextId, a, b, "hello", false, db.nextId⟩ ∧
    (⟨db.nextId, a, b, "hello", true, db.nextId⟩ : Message) ∈
      (getConversation db1 b a).1.messages ∧
    getUnreadMessageCount (getConversation db1 b a).1 b =
      (db.messages.filter (fun m =>
        m.receiver_id == b && m.read == false && !(m.sender_id == a))).length ∧
    getUnreadMessageCount (getConversation db1 b a).1 a =
      getUnreadMessageCount db a := by
  obtain ⟨hc, hdb1⟩ := sendMessage_ok db db1 a b "hello" h
  have hcb : (connectionBetween db1 b a).isEmpty = false := by
    rw [connectionBetween_congr b a (show db1.connections = db.connections
      by rw [hdb1]), connectionBetween_comm db b a]
    exact hc
  have hmsgs : db1.messages = db.messages ++
      [⟨db.nextId, a, b, "hello", false, db.nextId⟩] := by
    rw [hdb1]
  have hbetween : messagesBetween db1 b a = messagesBetween db b a ++
      [⟨db.nextId, a, b, "hello", false, db.nextId⟩] := by
    unfold messagesBetween
    rw [hmsgs, List.filter_append]
    simp
  have hres : getConversation db1 b a =
      ({ db1 with
          messages := db1.messages.map (fun m =>
            if m.sender_id == a && m.receiver_id == b && m.read == false
            then { m with read := true } else m) },
        (List.insertionSort msgOlderFirst (messagesBetween db1 b a), none))
      := by
    unfold getConversation
    rw [if_neg (by simp [hcb])]
  rw [hres]
  refine ⟨rfl, List.perm_insertionSort msgOlderFirst _,
    List.sorted_insertionSort msgOlderFirst _, ?_, ?_, ?_, ?_⟩
  · rw [hbetween, insertionSort_append_single msgOlderFirst _ _ ?_,
      List.getLast?_concat]
    intro m hm
    have hmem : m ∈ db.messages := (List.mem_filter.mp hm).1
    exact Nat.le_of_lt (hfresh m hmem)
  · simp only [hmsgs, List.map_append]
    refine List.mem_append_right _ ?_
    simp
  · unfold getUnreadMessageCount
    simp only [hmsgs, List.map_append, List.filter_append,
      List.length_append]
    rw [List.filter_map]
    simp only [Function.comp_def]
    rw [List.filter_congr (fun m _ => mark_read_filter_receiver a b m)]
    simp
  · unfold getUnreadMessageCount
    simp only [hmsgs, List.map_append, List.filter_append,
      List.length_append]
    rw [List.filter_map]
    simp only [Function.comp_def]
    rw [List.filter_congr (fun m _ => mark_read_filter_other a b a m hab)]
    simp [Ne.symm hab]

/-- C5 witness: the concrete run on `dbConnected`, read back by the
receiver 2. -/
theorem send_then_receiver_reads_roundtrip_witness :
    (1 : Nat) ≠ 2 ∧
    sendMessage dbConnected 1 2 "hello" = (dbHello, none) ∧
    ((getConversation dbHello 2 1).2.2 = none ∧
    List.Perm (getConversation dbHello 2 1).2.1 (messagesBetween dbHello 2 1) ∧
    List.Sorted msgOlderFirst (getConversation dbHello 2 1).2.1 ∧
    (getConversation dbHello 2 1).2.1.getLast? =
      some ⟨5, 1, 2, "hello", false, 5⟩ ∧
    (⟨5, 1, 2, "hello", true, 5⟩ : Message) ∈
      (getConversation dbHello 2 1).1.messages ∧
    getUnreadMessageCount (getConversation dbHello 2 1).1 2 =
      (dbConnected.messages.filter (fun m =>
        m.receiver_id == 2 && m.read == false &&
          !(m.sender_id == 1))).length ∧
    getUnreadMessageCount (getConversation dbHello 2 1).1 1 =
      getUnreadMessageCount dbConnected 1) :=
  ⟨by decide, by decide,
    send_then_receiver_reads_roundtrip dbConnected dbHello 1 2 (by decide)
      (by decide) (by decide)⟩

/-! ## The AlreadyConnected check of sendConnectionRequest -/

theorem touches_of_pairMatches {c : Connection} {s r : Nat}
    (h : pairMatches c s r = true) :
    touches c s = true ∧ touches c r = true := by
  unfold pairMatches at h
  unfold touches
  simp only [Bool.and_eq_true, Bool.or_eq_true, beq_iff_eq] at h ⊢
  rcases h with ⟨h1, h2⟩ | ⟨h1, h2⟩
  · exact ⟨Or.inl h1, Or.inr h2⟩
  · exact ⟨Or.inr h2, Or.inl h1⟩

/-- The store after `sendConnectionRequest dbAfterRequest 2 1`: both
directed pending requests coexist. -/
def dbBothRequests : DB :=
  { profiles := [⟨1, "alice", none, "melb", []⟩, ⟨2, "bob", none, "syd", []⟩],
    connection_requests := [⟨3, 1, 2, "alice", RequestStatus.pending, 3⟩,
      ⟨4, 2, 1, "bob", RequestStatus.pending, 4⟩],
    connections := [], messages := [], nextId := 5 }

/-- The store after accepting request 4: the pair is connected while the
opposite-direction request 3 is still pending. -/
def dbPendingAndConnected : DB :=
  { profiles := [⟨1, "alice", none, "melb", []⟩, ⟨2, "bob", none, "syd", []⟩],
    connection_requests := [⟨3, 1, 2, "alice", RequestStatus.pending, 3⟩,
      ⟨4, 2, 1, "bob", RequestStatus.accepted, 4⟩],
    connections := [⟨5, 2, 1, 5⟩], messages := [], nextId := 6 }

/-- C6 counterexample: a reachable state in which a `connections` row for
the unordered pair exists and yet `sendConnectionRequest 1 2` fails with
AlreadyRequested, not AlreadyConnected — the pending-request check runs
first.  The state arises when both users request each other and only the
second request is accepted. -/
theorem alreadyConnected_shadowed_by_pending :
    sendConnectionRequest dbAfterRequest 2 1 = (dbBothRequests, none) ∧
    acceptConnectionRequest dbBothRequests 4 true =
      (dbPendingAndConnected, none) ∧
    (∃ c ∈ dbPendingAndConnected.connections, pairMatches c 1 2 = true) ∧
    (sendConnectionRequest dbPendingAndConnected 1 2).2 =
      some Err.alreadyRequested ∧
    (sendConnectionRequest dbPendingAndConnected 1 2).2 ≠
      some Err.alreadyConnected := by
  decide

/-- C6 (amended): `sendConnectionRequest A B` fails with AlreadyConnected
whenever a `connections` row exists for the unordered pair {A,B} in
either column order, provided the sender's profile resolves with a
nonempty username and no pending request for the ordered pair (A,B)
exists (that earlier check takes precedence); in particular this covers
the state right after a lone request from A to B has been accepted. -/
theorem sendRequest_alreadyConnected (db : DB) (s r : Nat) (p : Profile)
    (hp : findProfile db s = some p) (hu : p.username ≠ "")
    (hnopending : ∀ q ∈ db.connection_requests,
      ¬(q.sender_id = s ∧ q.receiver_id = r ∧
        q.status = RequestStatus.pending))
    (hconn : ∃ c ∈ db.connections, pairMatches c s r = true) :
    sendConnectionRequest db s r = (db, some Err.alreadyConnected) := by
  unfold sendConnectionRequest
  rw [hp]
  simp only
  rw [if_neg (by simp [hu])]
  have hfilter : db.connection_requests.filter (fun q =>
      q.sender_id == s && q.receiver_id == r &&
        q.status == RequestStatus.pending) = [] := by
    rw [List.filter_eq_nil_iff]
    intro q hq
    have hnp := hnopending q hq
    simp only [Bool.and_eq_true, beq_iff_eq]
    intro hcon
    exact hnp ⟨hcon.1.1, hcon.1.2, hcon.2⟩
  rw [hfilter]
  rw [if_neg (by simp)]
  obtain ⟨c, hc, hcm⟩ := hconn
  obtain ⟨hts, htr⟩ := touches_of_pairMatches hcm
  have hne : (db.connections.filter (fun c =>
      touches c s && touches c r)).isEmpty = false := by
    rcases hl : db.connections.filter (fun c =>
        touches c s && touches c r) with _ | _
    · exfalso
      have : c ∈ db.connections.filter (fun c =>
          touches c s && touches c r) :=
        List.mem_filter.mpr ⟨hc, by simp [hts, htr]⟩
      rw [hl] at this
      simp at this
    · simp [hl]
  rw [if_pos (by simp [hne])]

/-- C6 witness: `dbConnected` is the state right after the lone request
from 1 to 2 was accepted; the duplicate request fails AlreadyConnected. -/
theorem sendRequest_alreadyConnected_witness :
    findProfile dbConnected 1 = some ⟨1, "alice", none, "melb", []⟩ ∧
    sendConnectionRequest dbConnected 1 2 =
      (dbConnected, some Err.alreadyConnected) :=
  ⟨by decide, sendRequest_alreadyConnected dbConnected 1 2
    ⟨1, "alice", none, "melb", []⟩ (by decide) (by decide) (by decide)
    ⟨⟨4, 1, 2, 4⟩, by decide, by decide⟩⟩

/-! ## Payload validation of message sending -/

/-- C7 counterexample: the service-level `sendMessage` performs no payload
validation: with connected users, a call with empty content (and no media
parameter at all in the service signature) succeeds and persists a
message with empty content. -/
theorem sendMessage_accepts_empty_payload :
    (sendMessage dbConnected 1 2 "").2 = none ∧
    (∃ m ∈ (sendMessage dbConnected 1 2 "").1.messages,
      m.content = "" ∧ m.sender_id = 1 ∧ m.receiver_id = 2) := by
  decide

/-- C7 (amended): the empty-payload rule is enforced by the chat screen's
`handleSendMessage`, not by the service: when no media is attached and
the trimmed text is empty the handler returns early without calling
`sendMessage`, so nothing is persisted; the service itself accepts any
content. -/
theorem empty_payload_guard_in_handler (db : DB) (u o : Nat)
    (text : String) (uploadOk : Bool) (h : jsTrim text = "") :
    handleSendMessage db u o text none uploadOk = (db, none) ∧
    (handleSendMessage db u o text none uploadOk).1.messages =
      db.messages := by
  unfold handleSendMessage
  simp [h]

/-- C7 witness: the guard at blank text with no media. -/
theorem empty_payload_guard_in_handler_witness :
    jsTrim "  " = "" ∧
    handleSendMessage dbConnected 1 2 "  " none true = (dbConnected, none) ∧
    (handleSendMessage dbConnected 1 2 "  " none true).1.messages =
      dbConnected.messages := by
  have h := empty_payload_guard_in_handler dbConnected 1 2 "  " true
    (by decide)
  exact ⟨by decide, h.1, h.2⟩

/-! ## Decline semantics (spec-modelled, see declineConnectionRequest) -/

/-- C8: `declineConnectionRequest` fails with RequestNotFound when no
request with the id exists; on success the request record is removed
entirely (no tombstone remains with that id), and a second decline of the
same id then fails with RequestNotFound rather than succeeding. -/
theorem decline_notfound_and_removal (db : DB) (rid : Nat) :
    ((∀ q ∈ db.connection_requests, q.id ≠ rid) →
      declineConnectionRequest db rid = (db, some Err.requestNotFound)) ∧
    (∀ req ∈ db.connection_requests, req.id = rid →
      (declineConnectionRequest db rid).2 = none ∧
      (declineConnectionRequest db rid).1.connection_requests =
        db.connection_requests.filter (fun q => (q.id == rid) = false) ∧
      (∀ q ∈ (declineConnectionRequest db rid).1.connection_requests,
        q.id ≠ rid) ∧
      (declineConnectionRequest
        (declineConnectionRequest db rid).1 rid).2 =
          some Err.requestNotFound) := by
  constructor
  · intro habsent
    unfold declineConnectionRequest
    rw [List.find?_eq_none.mpr (fun q hq => by simp [habsent q hq])]
  · intro req hmem hid
    have hfind : (db.connection_requests.find?
        (fun r => r.id == rid)).isSome := by
      rw [List.find?_isSome]
      exact ⟨req, hmem, by simp [hid]⟩
    cases hf : db.connection_requests.find? (fun r => r.id == rid) with
    | none => rw [hf] at hfind; simp at hfind
    | some q =>
      have hres : declineConnectionRequest db rid =
          ({ db with
              connection_requests := db.connection_requests.filter
                (fun q => (q.id == rid) = false) }, none) := by
        unfold declineConnectionRequest
        rw [hf]
      rw [hres]
      have hclean : ∀ q ∈ db.connection_requests.filter
          (fun q => (q.id == rid) = false), q.id ≠ rid := by
        intro q hq
        have := (List.mem_filter.mp hq).2
        simpa using this
      refine ⟨rfl, rfl, hclean, ?_⟩
      unfold declineConnectionRequest
      rw [List.find?_eq_none.mpr (fun q hq => by simp [hclean q hq])]

/-- C8 witness: declining a missing id 9 fails; declining the pending
request 3 succeeds and a repeat fails with RequestNotFound. -/
theorem decline_notfound_and_removal_witness :
    declineConnectionRequest dbTwoProfiles 9 =
      (dbTwoProfiles, some Err.requestNotFound) ∧
    (declineConnectionRequest dbAfterRequest 3).2 = none ∧
    (declineConnectionRequest
      (declineConnectionRequest dbAfterRequest 3).1 3).2 =
        some Err.requestNotFound := by
  have h1 := (decline_notfound_and_removal dbTwoProfiles 9).1 (by decide)
  have h2 := (decline_notfound_and_removal dbAfterRequest 3).2
    ⟨3, 1, 2, "alice", RequestStatus.pending, 3⟩ (by decide) (by decide)
  exact ⟨h1, h2.1, h2.2.2.2⟩

/-! ## Error propagation and the partial-failure policy -/

/-- C9 counterexample: a storage failure inside `getConnectionRequests`
is swallowed, not propagated: the failing query is caught, logged, and
the caller receives the same bare `[]` a successful empty query yields —
the return type of the embedded function (a plain list, mirroring
`return { requests: [] }` with no error key) carries no error component.
So an operation outside `listConnections` silently swallows a storage
failure, contrary to the claim. -/
theorem listIncoming_swallows_query_failure :
    getConnectionRequests dbAfterRequest 2 true = [] ∧
    getConnectionRequests dbAfterRequest 2 false ≠ [] := by
  decide

/-- C9 (amended): `listConnections` applies the documented partial-failure
policy — the enumeration never aborts (its error component is `none`),
every connection touching the user whose counterpart profile resolves
appears in the result, and every returned item comes from such a
connection (rows with an unresolvable counterpart are dropped, one by
one) — but `listIncoming` additionally swallows whole-query storage
failures, returning a bare empty list with no error signal. -/
theorem listConnections_partial_failure_policy (db : DB) (u : Nat) :
    ((getUserConnections db u).2 = none) ∧
    (∀ c ∈ db.connections, touches c u = true →
      ∀ p, findProfile db (otherUser c u) = some p →
        (⟨c.id, p.id, p.username, p.photo_url, p.city, p.interests,
          c.created_at⟩ : UserConnection) ∈ (getUserConnections db u).1) ∧
    (∀ v ∈ (getUserConnections db u).1, ∃ c ∈ db.connections,
      touches c u = true ∧ ∃ p, findProfile db (otherUser c u) = some p ∧
        v = ⟨c.id, p.id, p.username, p.photo_url, p.city, p.interests,
          c.created_at⟩) := by
  refine ⟨rfl, ?_, ?_⟩
  · intro c hc ht p hp
    unfold getUserConnections
    refine List.mem_filterMap.mpr ⟨c, List.mem_filter.mpr ⟨hc, ht⟩, ?_⟩
    unfold resolveConnection
    rw [hp]
  · intro v hv
    obtain ⟨c, hcf, hres⟩ := List.mem_filterMap.mp hv
    obtain ⟨hc, ht⟩ := List.mem_filter.mp hcf
    refine ⟨c, hc, ht, ?_⟩
    unfold resolveConnection at hres
    cases hp : findProfile db (otherUser c u) with
    | none => rw [hp] at hres; simp at hres
    | some p =>
      rw [hp] at hres
      refine ⟨p, rfl, ?_⟩
      simpa using hres.symm

/-- A store where user 2's profile is missing but user 3's exists: of the
two connections of user 1, only the one with 3 can resolve. -/
def dbMissingProfile : DB :=
  { profiles := [⟨1, "alice", none, "melb", []⟩, ⟨3, "carol", none, "bne", []⟩],
    connection_requests := [],
    connections := [⟨4, 1, 2, 4⟩, ⟨7, 3, 1, 7⟩],
    messages := [], nextId := 8 }

/-- C9 witness: on `dbMissingProfile` the enumeration for user 1 reports
no error, contains the resolvable counterpart 3, and the row whose
counterpart 2 has no profile is dropped. -/
theorem listConnections_partial_failure_policy_witness :
    (getUserConnections dbMissingProfile 1).2 = none ∧
    (⟨7, 3, "carol", none, "bne", [], 7⟩ : UserConnection) ∈
      (getUserConnections dbMissingProfile 1).1 ∧
    getUserConnections dbMissingProfile 1 =
      ([⟨7, 3, "carol", none, "bne", [], 7⟩], none) := by
  have h := listConnections_partial_failure_policy dbMissingProfile 1
  exact ⟨h.1, h.2.1 ⟨7, 3, 1, 7⟩ (by decide) (by decide)
    ⟨3, "carol", none, "bne", []⟩ (by decide), by decide⟩

/-! ## Self-requests -/

/-- C10: `sendConnectionRequest` never checks sender against receiver: in
a state where A's profile resolves, no pending (A,A) request exists and
no `connections` row touches A at all, `sendConnectionRequest A A`
succeeds and inserts a pending request whose sender and receiver are both
A. -/
theorem self_request_not_rejected (db : DB) (a : Nat) (p : Profile)
    (hp : findProfile db a = some p) (hu : p.username ≠ "")
    (hnopending : ∀ q ∈ db.connection_requests,
      ¬(q.sender_id = a ∧ q.receiver_id = a ∧
        q.status = RequestStatus.pending))
    (hnoconn : ∀ c ∈ db.connections, touches c a = false) :
    (sendConnectionRequest db a a).2 = none ∧
    ∃ q ∈ (sendConnectionRequest db a a).1.connection_requests,
      q.sender_id = a ∧ q.receiver_id = a ∧
        q.status = RequestStatus.pending := by
  have hres : sendConnectionRequest db a a =
      ({ db with
          connection_requests := db.connection_requests ++
            [⟨db.nextId, a, a, p.username, RequestStatus.pending,
              db.nextId⟩],
          nextId := db.nextId + 1 }, none) := by
    unfold sendConnectionRequest
    rw [hp]
    simp only
    rw [if_neg (by simp [hu])]
    have hfilter : db.connection_requests.filter (fun q =>
        q.sender_id == a && q.receiver_id == a &&
          q.status == RequestStatus.pending) = [] := by
      rw [List.filter_eq_nil_iff]
      intro q hq
      have hnp := hnopending q hq
      simp only [Bool.and_eq_true, beq_iff_eq]
      intro hcon
      exact hnp ⟨hcon.1.1, hcon.1.2, hcon.2⟩
    have hcfilter : db.connections.filter (fun c =>
        touches c a && touches c a) = [] := by
      rw [List.filter_eq_nil_iff]
      intro c hc
      simp [hnoconn c hc]
    rw [hfilter, hcfilter]
    simp
  rw [hres]
  refine ⟨rfl, ⟨db.nextId, a, a, p.username, RequestStatus.pending,
    db.nextId⟩, ?_, rfl, rfl, rfl⟩
  exact List.mem_append_right _ (List.mem_singleton.mpr rfl)

/-- C10 witness: user 1 self-requests on the fresh two-profile store. -/
theorem self_request_not_rejected_witness :
    findProfile dbTwoProfiles 1 = some ⟨1, "alice", none, "melb", []⟩ ∧
    ((sendConnectionRequest dbTwoProfiles 1 1).2 = none ∧
    ∃ q ∈ (sendConnectionRequest dbTwoProfiles 1 1).1.connection_requests,
      q.sender_id = 1 ∧ q.receiver_id = 1 ∧
        q.status = RequestStatus.pending) :=
  ⟨by decide, self_request_not_rejected dbTwoProfiles 1
    ⟨1, "alice", none, "melb", []⟩ (by decide) (by decide) (by decide)
    (by decide)⟩

end Catchup
